import Mathlib

/-!
Verification model of FastMOT's `fastmot/videoio.py`.

The file embeds the buffering and synchronization core of `VideoIO`:

* `dequeAppend` models Python's `collections.deque` with `maxlen`
  (line 79: `self.frame_queue = deque([], maxlen=self.buffer_size)`);
  appending to a full deque discards elements from the opposite (oldest) end.
* `St`/`Step`/`Reaches` form a labeled transition system over the shared
  state protected by `self.cond`: the frame queue, the `exit_event` flag,
  the capture thread's position in `_capture_frames` (lines 254-268), the
  progress of a `stop_capture` call (lines 121-127), and the history of
  frames appended by the producer and returned to the consumer by `read`
  (lines 129-146).
* A second, sequential model (`CState`, `startCapture`, `stopCapture`,
  `release`) covers the consumer-side lifecycle calls and the Python
  `threading.Thread` start/join contract, used for the idempotence and
  restart claims.
* Pure definitions (`capFpsInit`, `cap_dt`, `videoInit`, `readPost`) embed
  the pacing property (lines 109-112), the constructor (lines 59-95) and
  the resize post-processing in `read` (lines 144-146).
-/

/-- Python `collections.deque` append under a `maxlen` bound: the new element
is appended at the right and, if the length would exceed `maxlen`, elements
are discarded from the left (the oldest end).  This is the exact semantics of
`deque(..., maxlen=n).append(x)` used at line 267 of `videoio.py`. -/
def dequeAppend {α : Type} (maxlen : Nat) (q : List α) (x : α) : List α :=
  (q ++ [x]).drop ((q ++ [x]).length - maxlen)

/-- Static configuration of a `VideoIO` instance: liveness classification
(line 71) and the buffer capacity `buffer_size` (asserted `>= 1`, line 65). -/
structure Sys where
  isLive : Bool
  maxlen : Nat

/-- Position of the capture thread inside `_capture_frames` (lines 254-268):
at the top of the loop, holding a successfully read frame, holding a failed
read, or exited. -/
inductive PC (α : Type) where
  | top : PC α
  | gotFrame : α → PC α
  | gotFail : PC α
  | done : PC α

/-- Progress of a `stop_capture` call (lines 121-127): not yet called, exit
event set and notified (inside the lock), queue cleared (outside the lock),
and `cap_thread.join()` returned. -/
inductive StopPC where
  | notCalled : StopPC
  | signaled : StopPC
  | cleared : StopPC
  | joined : StopPC

/-- Shared state of the producer/consumer machine: the frame queue and exit
event (shared under `self.cond`), both thread positions, and the histories of
appended frames and frames returned by `read` (oldest first).  `eos` records
that some `read` returned the `None` end-of-stream sentinel. -/
structure St (α : Type) where
  queue : List α
  exitFlag : Bool
  pc : PC α
  stopPC : StopPC
  reads : List α
  appended : List α
  eos : Bool

/-- State right after `__init__` primed the first frame into the queue
(lines 84-87) and before `start_capture` runs the thread body. -/
def initSt {α : Type} (f₀ : α) : St α :=
  { queue := [f₀], exitFlag := false, pc := PC.top, stopPC := StopPC.notCalled,
    reads := [], appended := [f₀], eos := false }

/-- The decision made by `read` once its wait loop has exited
(lines 140-142): return `None` on an empty queue, else the head frame. -/
def readDecision {α : Type} (s : St α) : Option α :=
  match s.queue with
  | [] => none
  | x :: _ => some x

/-- Effect of the locked body of `read` after the wait loop (lines 140-143):
either record the end-of-stream sentinel, or pop the head frame and record
it as returned. -/
def applyPop {α : Type} (s : St α) : St α :=
  match s.queue with
  | [] => { s with eos := true }
  | x :: t => { s with queue := t, reads := s.reads ++ [x] }

/-- Number of frames the capture thread still holds in hand (a successfully
read frame not yet appended). -/
def pending {α : Type} (s : St α) : Nat :=
  match s.pc with
  | PC.gotFrame _ => 1
  | _ => 0

/-- One atomic transition of the system.  Producer transitions follow
`_capture_frames` (lines 254-268): the loop-top check of `exit_event`
combined with `source.read()`, the locked append (whose wait-on-full guard
applies only to non-live sources, lines 262-266), and the failure branch
(lines 258-261).  `pop` is the locked body of `read` (lines 137-143), whose
hypothesis is the exit condition of its wait loop.  `sigStop`, `clearStop`
and `joinStop` are the three sequential phases of `stop_capture`
(lines 121-127); note `frame_queue.clear()` runs outside the lock and
`join` completes only once the capture thread has exited. -/
inductive Step (sys : Sys) : St α → St α → Prop where
  | readOk (s : St α) (x : α) :
      s.pc = PC.top → s.exitFlag = false →
      Step sys s { s with pc := PC.gotFrame x }
  | readFail (s : St α) :
      s.pc = PC.top → s.exitFlag = false →
      Step sys s { s with pc := PC.gotFail }
  | exitLoop (s : St α) :
      s.pc = PC.top → s.exitFlag = true →
      Step sys s { s with pc := PC.done }
  | append (s : St α) (x : α) :
      s.pc = PC.gotFrame x →
      (sys.isLive = true ∨ s.queue.length < sys.maxlen ∨ s.exitFlag = true) →
      Step sys s { s with queue := dequeAppend sys.maxlen s.queue x,
                          appended := s.appended ++ [x], pc := PC.top }
  | fail (s : St α) :
      s.pc = PC.gotFail →
      Step sys s { s with exitFlag := true, pc := PC.done }
  | pop (s : St α) :
      ¬(s.queue = [] ∧ s.exitFlag = false) →
      Step sys s (applyPop s)
  | sigStop (s : St α) :
      s.stopPC = StopPC.notCalled →
      Step sys s { s with exitFlag := true, stopPC := StopPC.signaled }
  | clearStop (s : St α) :
      s.stopPC = StopPC.signaled →
      Step sys s { s with queue := [], stopPC := StopPC.cleared }
  | joinStop (s : St α) :
      s.stopPC = StopPC.cleared → s.pc = PC.done →
      Step sys s { s with stopPC := StopPC.joined }

/-- States reachable from a freshly constructed instance by any
interleaving of the capture thread, the consumer, and one `stop_capture`. -/
inductive Reaches (sys : Sys) : St α → Prop where
  | init (f₀ : α) : Reaches sys (initSt f₀)
  | step {s s' : St α} : Reaches sys s → Step sys s s' → Reaches sys s'

/-- Inductive invariant of the system: capacity bound, order preservation
(returned frames followed by buffered frames form a subsequence of the
appended history), monotonicity of the exit flag relative to `stop_capture`,
the exact no-loss accounting for non-live sources before shutdown, and the
residual-buffer bound once `stop_capture` has cleared the queue. -/
def SysInv (sys : Sys) (s : St α) : Prop :=
  s.queue.length ≤ sys.maxlen ∧
  List.Sublist (s.reads ++ s.queue) s.appended ∧
  (s.stopPC ≠ StopPC.notCalled → s.exitFlag = true) ∧
  (sys.isLive = false → s.exitFlag = false → s.appended = s.reads ++ s.queue) ∧
  ((s.stopPC = StopPC.cleared ∨ s.stopPC = StopPC.joined) →
      s.queue.length + pending s ≤ 1) ∧
  (s.stopPC = StopPC.joined → s.pc = PC.done)

/-- Python `threading.Thread` observable state: whether `start()` has ever
been called and whether the thread is currently alive. -/
structure PThread where
  started : Bool
  alive : Bool

/-- `threading.Thread.start()`: raises `RuntimeError` if the thread was ever
started before (Python threads cannot be restarted), else marks it alive. -/
def PThread.start (t : PThread) : Except String PThread :=
  if t.started then Except.error "threads can only be started once"
  else Except.ok { started := true, alive := true }

/-- `threading.Thread.join()`: raises `RuntimeError` when the thread was
never started; otherwise blocks until the thread has exited, after which the
thread is no longer alive.  Its completion is modeled as immediate; the
transition system's `captureTaskProgress` shows the capture thread always
reaches `PC.done` once the exit event is set, so the join terminates. -/
def PThread.join (t : PThread) : Except String PThread :=
  if t.started then Except.ok { t with alive := false }
  else Except.error "cannot join thread before it is started"

/-- Consumer-side lifecycle state of a `VideoIO` instance: the capture
thread, the exit event, whether the capture handle is open, whether an
output writer was configured and is open, and counters of the actual
resource closes performed by the OpenCV handles. -/
structure CState where
  cap_thread : PThread
  exit_event : Bool
  source_opened : Bool
  source_closes : Nat
  has_writer : Bool
  writer_opened : Bool
  writer_closes : Nat

/-- OpenCV `VideoCapture.release()` contract: closing an open handle frees
it once; calling release again on a closed handle is a no-op. -/
def cvSourceRelease (s : CState) : CState :=
  if s.source_opened then
    { s with source_opened := false, source_closes := s.source_closes + 1 }
  else s

/-- OpenCV `VideoWriter.release()` contract, same idempotent shape. -/
def cvWriterRelease (s : CState) : CState :=
  if s.writer_opened then
    { s with writer_opened := false, writer_closes := s.writer_closes + 1 }
  else s

/-- `VideoIO.start_capture` (lines 114-119): reopen the source if needed,
then start the thread unless it is currently alive.  Starting a joined
(dead but previously started) thread raises. -/
def startCapture (s : CState) : Except String CState :=
  let s1 := if ¬ s.source_opened then { s with source_opened := true } else s
  if ¬ s1.cap_thread.alive then
    match s1.cap_thread.start with
    | Except.error e => Except.error e
    | Except.ok t => Except.ok { s1 with cap_thread := t }
  else Except.ok s1

/-- `VideoIO.stop_capture` (lines 121-127) as seen from the calling thread:
set the exit event (and notify), clear the queue, join the capture thread.
The queue itself lives in the transition-system model; its clearing and the
one-frame residue race are treated there. -/
def stopCapture (s : CState) : Except String CState :=
  let s1 := { s with exit_event := true }
  match s1.cap_thread.join with
  | Except.error e => Except.error e
  | Except.ok t => Except.ok { s1 with cap_thread := t }

/-- `VideoIO.release` (lines 153-158): stop capture, release the writer if
one was configured, release the source. -/
def release (s : CState) : Except String CState :=
  match stopCapture s with
  | Except.error e => Except.error e
  | Except.ok s1 =>
      let s2 := if s1.has_writer then cvWriterRelease s1 else s1
      Except.ok (cvSourceRelease s2)

/-- The lifecycle state `stop_capture` produces from `s` when it succeeds. -/
def stopped (s : CState) : CState :=
  { s with exit_event := true, cap_thread := { s.cap_thread with alive := false } }

/-- Holds when a lifecycle computation succeeded with close counters bounded
by `a` (source) and `b` (writer): no handle was freed more often than that. -/
def closesBounded (e : Except String CState) (a b : Nat) : Prop :=
  match e with
  | Except.ok c => c.source_closes ≤ a ∧ c.writer_closes ≤ b
  | Except.error _ => False

/-- `cap_fps` fallback at lines 93-94: if the source reports a zero frame
rate, fall back to the configured `frame_rate`. -/
def capFpsInit (reported frameRate : ℚ) : ℚ :=
  if reported = 0 then frameRate else reported

/-- The `cap_dt` property (lines 109-112): the capture interval is limited
by processing latency for live sources.  It is a pure function of the
immutable fields it reads, matching the attribute-read-only Python body. -/
def cap_dt (isLive : Bool) (capFps procFps : ℚ) : ℚ :=
  if isLive then 1 / min capFps procFps else 1 / capFps

/-- A decoded frame: its dimensions plus an opaque content token. -/
structure Frame where
  width : ℚ
  height : ℚ
  data : Nat

/-- OpenCV `cv2.resize(frame, size)` contract: an external transform that
produces a frame with exactly the requested dimensions. -/
def cvResize (f : Frame) (size : ℚ × ℚ) : Frame :=
  { width := size.1, height := size.2, data := f.data }

/-- The post-pop transform of `read` (lines 144-146): resize when the
construction-time `do_resize` flag is set, else return the frame as is. -/
def readPost (do_resize : Bool) (size : ℚ × ℚ) (f : Frame) : Frame :=
  if do_resize then cvResize f size else f

/-- Result of a successful `VideoIO.__init__`: the primed frame queue, the
created-but-not-started capture thread (line 82; `start()` is only invoked
from `start_capture`), the exit event, the construction-time `do_resize`
decision (line 92) and the effective `cap_fps` (lines 91-94). -/
structure InitResult where
  frame_queue : List Frame
  cap_thread : PThread
  exit_event : Bool
  do_resize : Bool
  cap_fps : ℚ

/-- `VideoIO.__init__` (lines 59-95) restricted to the buffering core: the
three `assert`s (lines 63-67), the first-frame read with its `RuntimeError`
(lines 84-87), priming the queue (line 87), and the derived fields.
`firstRead` is the outcome of the first `source.read()`; `nativeW`,
`nativeH`, `reportedFps` are what the source reports. -/
def videoInit (size : ℚ × ℚ) (frameRate : ℚ) (bufferSize : Nat) (procFps : ℚ)
    (firstRead : Option Frame) (nativeW nativeH reportedFps : ℚ) :
    Except String InitResult :=
  if ¬ (0 < frameRate) then Except.error "assert frame_rate > 0"
  else if ¬ (1 ≤ bufferSize) then Except.error "assert buffer_size >= 1"
  else if ¬ (0 < procFps) then Except.error "assert proc_fps > 0"
  else
    match firstRead with
    | none => Except.error "Unable to read video stream"
    | some f =>
        Except.ok
          { frame_queue := [f],
            cap_thread := { started := false, alive := false },
            exit_event := false,
            do_resize := decide ((nativeW, nativeH) ≠ size),
            cap_fps := capFpsInit reportedFps frameRate }

/-- Termination measure for the capture thread once the exit event is set:
each of its remaining steps strictly decreases it, so `join` cannot block
forever. -/
def prodMeasure {α : Type} (s : St α) : Nat :=
  match s.pc with
  | PC.top => 1
  | PC.gotFrame _ => 2
  | PC.gotFail => 1
  | PC.done => 0

/-- Whether the capture thread of a construction result was ever started. -/
def initThreadStarted (e : Except String InitResult) : Option Bool :=
  e.toOption.map fun r => r.cap_thread.started

/-- The `do_resize` decision of a construction result. -/
def initDoResize (e : Except String InitResult) : Option Bool :=
  e.toOption.map fun r => r.do_resize

theorem length_dequeAppend {α : Type} (m : Nat) (q : List α) (x : α) :
    (dequeAppend m q x).length = min m (q.length + 1) := by
  simp [dequeAppend]
  omega

theorem dequeAppend_sublist {α : Type} (m : Nat) (q : List α) (x : α) :
    List.Sublist (dequeAppend m q x) (q ++ [x]) :=
  List.drop_sublist _ _

theorem dequeAppend_of_lt {α : Type} {m : Nat} {q : List α} (x : α)
    (h : q.length < m) : dequeAppend m q x = q ++ [x] := by
  unfold dequeAppend
  have h0 : (q ++ [x]).length - m = 0 := by simp; omega
  rw [h0, List.drop_zero]

theorem dequeAppend_full {α : Type} {m : Nat} {q : List α} (x : α)
    (h : q.length = m) (hm : 1 ≤ m) :
    dequeAppend m q x = q.drop 1 ++ [x] := by
  cases q with
  | nil => simp at h; omega
  | cons y t =>
      unfold dequeAppend
      have h1 : (y :: t ++ [x]).length - m = 1 := by simp at h ⊢; omega
      rw [h1]
      simp

theorem pending_le_one {α : Type} (s : St α) : pending s ≤ 1 := by
  unfold pending
  cases s.pc <;> simp

theorem applyPop_nil {α : Type} {s : St α} (h : s.queue = []) :
    applyPop s = { s with eos := true } := by
  unfold applyPop
  rw [h]

theorem applyPop_cons {α : Type} {s : St α} {y : α} {t : List α}
    (h : s.queue = y :: t) :
    applyPop s = { s with queue := t, reads := s.reads ++ [y] } := by
  unfold applyPop
  rw [h]


theorem pending_of_top {α : Type} {s : St α} (h : s.pc = PC.top) :
    pending s = 0 := by
  unfold pending
  rw [h]

theorem pending_of_gotFrame {α : Type} {s : St α} {x : α}
    (h : s.pc = PC.gotFrame x) : pending s = 1 := by
  unfold pending
  rw [h]

theorem pending_of_gotFail {α : Type} {s : St α} (h : s.pc = PC.gotFail) :
    pending s = 0 := by
  unfold pending
  rw [h]

theorem pending_of_done {α : Type} {s : St α} (h : s.pc = PC.done) :
    pending s = 0 := by
  unfold pending
  rw [h]

theorem sysInv_step {α : Type} {sys : Sys} {s s' : St α}
    (hinv : SysInv sys s) (hst : Step sys s s') : SysInv sys s' := by
  obtain ⟨h1, h2, h3, h4, h5, h6⟩ := hinv
  cases hst with
  | readOk x hpc hex =>
      refine ⟨h1, h2, h3, h4, ?_, ?_⟩
      · intro hc
        have hne : s.stopPC ≠ StopPC.notCalled := by
          rcases hc with hc | hc <;> simp [show s.stopPC = _ from hc]
        rw [h3 hne] at hex
        exact absurd hex (by simp)
      · intro hc
        have hne : s.stopPC ≠ StopPC.notCalled := by
          simp [show s.stopPC = _ from hc]
        rw [h3 hne] at hex
        exact absurd hex (by simp)
  | readFail hpc hex =>
      refine ⟨h1, h2, h3, h4, ?_, ?_⟩
      · intro hc
        have hne : s.stopPC ≠ StopPC.notCalled := by
          rcases hc with hc | hc <;> simp [show s.stopPC = _ from hc]
        rw [h3 hne] at hex
        exact absurd hex (by simp)
      · intro hc
        have hne : s.stopPC ≠ StopPC.notCalled := by
          simp [show s.stopPC = _ from hc]
        rw [h3 hne] at hex
        exact absurd hex (by simp)
  | exitLoop hpc hex =>
      refine ⟨h1, h2, h3, h4, ?_, ?_⟩
      · intro hc
        have h := h5 hc
        rw [pending_of_top hpc] at h
        show s.queue.length + pending { s with pc := PC.done } ≤ 1
        rw [pending_of_done rfl]
        omega
      · intro _
        rfl
  | append x hpc hguard =>
      refine ⟨?_, ?_, h3, ?_, ?_, ?_⟩
      · show (dequeAppend sys.maxlen s.queue x).length ≤ sys.maxlen
        have h := length_dequeAppend sys.maxlen s.queue x
        omega
      · show List.Sublist (s.reads ++ dequeAppend sys.maxlen s.queue x)
            (s.appended ++ [x])
        have hsub1 : List.Sublist (s.reads ++ dequeAppend sys.maxlen s.queue x)
            (s.reads ++ (s.queue ++ [x])) :=
          List.Sublist.append_left (dequeAppend_sublist _ _ _) _
        have hsub2 : List.Sublist ((s.reads ++ s.queue) ++ [x])
            (s.appended ++ [x]) :=
          List.Sublist.append h2 (List.Sublist.refl _)
        rw [← List.append_assoc] at hsub1
        exact hsub1.trans hsub2
      · intro hl hex'
        have hexs : s.exitFlag = false := hex'
        show s.appended ++ [x] = s.reads ++ dequeAppend sys.maxlen s.queue x
        rcases hguard with hL | hlen | hE
        · rw [hl] at hL
          exact absurd hL (by simp)
        · rw [dequeAppend_of_lt x hlen, h4 hl hexs, List.append_assoc]
        · rw [hexs] at hE
          exact absurd hE (by simp)
      · intro hc
        have h := h5 hc
        rw [pending_of_gotFrame hpc] at h
        have hlen := length_dequeAppend sys.maxlen s.queue x
        show (dequeAppend sys.maxlen s.queue x).length +
            pending { s with queue := dequeAppend sys.maxlen s.queue x,
                             appended := s.appended ++ [x], pc := PC.top } ≤ 1
        rw [pending_of_top rfl]
        omega
      · intro hc
        have h := h6 hc
        rw [hpc] at h
        exact absurd h (by simp)
  | fail hpc =>
      refine ⟨h1, h2, ?_, ?_, ?_, ?_⟩
      · intro _
        rfl
      · intro _ hex'
        exact absurd hex' (by simp)
      · intro hc
        have h := h5 hc
        rw [pending_of_gotFail hpc] at h
        show s.queue.length +
            pending { s with exitFlag := true, pc := PC.done } ≤ 1
        rw [pending_of_done rfl]
        omega
      · intro _
        rfl
  | pop hguard =>
      rcases hq : s.queue with _ | ⟨y, t⟩
      · rw [applyPop_nil hq]
        exact ⟨h1, h2, h3, h4, h5, h6⟩
      · rw [applyPop_cons hq]
        rw [hq] at h1 h2
        refine ⟨?_, ?_, h3, ?_, ?_, h6⟩
        · show t.length ≤ sys.maxlen
          simp at h1
          omega
        · show List.Sublist ((s.reads ++ [y]) ++ t) s.appended
          rw [List.append_assoc]
          simpa using h2
        · intro hl hex'
          have h := h4 hl hex'
          rw [hq] at h
          show s.appended = (s.reads ++ [y]) ++ t
          rw [h, List.append_assoc]
          simp
        · intro hc
          have h := h5 hc
          rw [hq] at h
          have hp : pending { s with queue := t, reads := s.reads ++ [y] } =
              pending s := rfl
          show t.length +
              pending { s with queue := t, reads := s.reads ++ [y] } ≤ 1
          rw [hp]
          simp at h
          omega
  | sigStop hsp =>
      refine ⟨h1, h2, ?_, ?_, ?_, ?_⟩
      · intro _
        rfl
      · intro _ hex'
        exact absurd hex' (by simp)
      · intro hc
        rcases hc with hc | hc <;> simp at hc
      · intro hc
        simp at hc
  | clearStop hsp =>
      refine ⟨?_, ?_, ?_, ?_, ?_, ?_⟩
      · show ([] : List α).length ≤ sys.maxlen
        simp
      · show List.Sublist (s.reads ++ []) s.appended
        simpa using (List.sublist_append_left s.reads s.queue).trans h2
      · intro _
        exact h3 (by simp [hsp])
      · intro hl hex'
        have hT : s.exitFlag = true := h3 (by simp [hsp])
        have hexs : s.exitFlag = false := hex'
        rw [hT] at hexs
        exact absurd hexs (by simp)
      · intro _
        show ([] : List α).length +
            pending { s with queue := [], stopPC := StopPC.cleared } ≤ 1
        have hp : pending { s with queue := [], stopPC := StopPC.cleared } = pending s := rfl
        rw [hp]
        have := pending_le_one s
        simp
        omega
      · intro hc
        simp at hc
  | joinStop hsp hpcd =>
      refine ⟨h1, h2, ?_, h4, ?_, ?_⟩
      · intro _
        exact h3 (by simp [hsp])
      · intro _
        have h := h5 (Or.inl hsp)
        have hp : pending { s with stopPC := StopPC.joined } = pending s := rfl
        show s.queue.length + pending { s with stopPC := StopPC.joined } ≤ 1
        rw [hp]
        omega
      · intro _
        exact hpcd

theorem sysInv_init {α : Type} {sys : Sys} (hmax : 1 ≤ sys.maxlen) (f₀ : α) :
    SysInv sys (initSt f₀) := by
  refine ⟨?_, ?_, ?_, ?_, ?_, ?_⟩ <;> simp [initSt, pending]
  exact hmax

theorem sysInv_reaches {α : Type} {sys : Sys} {s : St α} (h : Reaches sys s)
    (hmax : 1 ≤ sys.maxlen) : SysInv sys s := by
  induction h with
  | init f₀ => exact sysInv_init hmax f₀
  | step _ hst ih => exact sysInv_step ih hst

theorem readDecision_nil {α : Type} {s : St α} (h : s.queue = []) :
    readDecision s = none := by
  unfold readDecision
  rw [h]

theorem readDecision_cons {α : Type} {s : St α} {y : α} {t : List α}
    (h : s.queue = y :: t) : readDecision s = some y := by
  unfold readDecision
  rw [h]

theorem captureTaskProgress {α : Type} (sys : Sys) (s : St α)
    (hex : s.exitFlag = true) (hpc : s.pc ≠ PC.done) :
    ∃ s', Step sys s s' ∧ prodMeasure s' < prodMeasure s := by
  cases hp : s.pc with
  | top =>
      refine ⟨{ s with pc := PC.done }, Step.exitLoop s hp hex, ?_⟩
      unfold prodMeasure
      rw [hp]
      simp
  | gotFrame x =>
      refine ⟨{ s with queue := dequeAppend sys.maxlen s.queue x,
                       appended := s.appended ++ [x], pc := PC.top },
        Step.append s x hp (Or.inr (Or.inr hex)), ?_⟩
      unfold prodMeasure
      rw [hp]
      simp
  | gotFail =>
      refine ⟨{ s with exitFlag := true, pc := PC.done }, Step.fail s hp, ?_⟩
      unfold prodMeasure
      rw [hp]
      simp
  | done => exact absurd hp hpc

/-- Claim C1 (amended): in every reachable state the buffer length never
exceeds the capacity `buffer_size`, and the frames already returned by
`read` followed by the frames still buffered form an order-preserving
subsequence of the frames appended by the Capture Task — no reordering and
no duplication.  (Exact equality of the read sequence with the append
sequence fails: the live-source overflow policy evicts the oldest buffered
frame, and `stop_capture` clears the buffer; see `C1_counterexample`.) -/
theorem C1_capacity_and_order {α : Type} (sys : Sys) (s : St α)
    (h : Reaches sys s) (hmax : 1 ≤ sys.maxlen) :
    s.queue.length ≤ sys.maxlen ∧
    List.Sublist (s.reads ++ s.queue) s.appended :=
  ⟨(sysInv_reaches h hmax).1, (sysInv_reaches h hmax).2.1⟩

theorem C1_capacity_and_order_witness :
    (@initSt Nat 5).queue.length ≤ (Sys.mk false 1).maxlen ∧
    List.Sublist ((@initSt Nat 5).reads ++ (@initSt Nat 5).queue)
      (@initSt Nat 5).appended :=
  C1_capacity_and_order (Sys.mk false 1) (@initSt Nat 5)
    (@Reaches.init (Sys.mk false 1) Nat 5) (by decide)

/-- Claim C1 fails as stated: with a live source and `buffer_size = 1`,
appending frame 20 while frame 10 is buffered evicts frame 10 (deque
semantics), so after the stream ends the consumer has read exactly `[20]`
while the Capture Task appended `[10, 20]` — the read sequence is not the
append sequence, frame 10 is never delivered. -/
theorem C1_counterexample :
    Reaches (Sys.mk true 1)
      (St.mk ([] : List Nat) true PC.done StopPC.notCalled [20] [10, 20] true) ∧
    (St.mk ([] : List Nat) true PC.done StopPC.notCalled [20] [10, 20] true).reads ≠
      (St.mk ([] : List Nat) true PC.done StopPC.notCalled [20] [10, 20] true).appended := by
  constructor
  · have r0 : Reaches (Sys.mk true 1) (initSt (10 : Nat)) := Reaches.init 10
    have r1 : Reaches (Sys.mk true 1)
        (St.mk [10] false (PC.gotFrame 20) StopPC.notCalled [] [10] false) :=
      Reaches.step r0 (Step.readOk _ 20 rfl rfl)
    have r2 : Reaches (Sys.mk true 1)
        (St.mk [20] false PC.top StopPC.notCalled [] [10, 20] false) :=
      Reaches.step r1 (Step.append _ 20 rfl (Or.inl rfl))
    have r3 : Reaches (Sys.mk true 1)
        (St.mk [] false PC.top StopPC.notCalled [20] [10, 20] false) :=
      Reaches.step r2 (Step.pop _ (by decide))
    have r4 : Reaches (Sys.mk true 1)
        (St.mk [] false PC.gotFail StopPC.notCalled [20] [10, 20] false) :=
      Reaches.step r3 (Step.readFail _ rfl rfl)
    have r5 : Reaches (Sys.mk true 1)
        (St.mk [] true PC.done StopPC.notCalled [20] [10, 20] false) :=
      Reaches.step r4 (Step.fail _ rfl)
    exact Reaches.step r5 (Step.pop _ (by decide))
  · decide

/-- Claim C2 (amended): for a live source the Capture Task's append is
always enabled — it never blocks on a full buffer — and when the buffer is
at capacity the append evicts the OLDEST buffered frame and keeps the
incoming newest frame (Python deque `maxlen` semantics), not the other way
around as the claim states (see `C2_counterexample`). -/
theorem C2_live_push_drop_oldest {α : Type} (sys : Sys) (s : St α) (x : α)
    (hlive : sys.isLive = true) (hmax : 1 ≤ sys.maxlen)
    (hpc : s.pc = PC.gotFrame x) :
    Step sys s { s with queue := dequeAppend sys.maxlen s.queue x,
                        appended := s.appended ++ [x], pc := PC.top } ∧
    (s.queue.length = sys.maxlen →
      dequeAppend sys.maxlen s.queue x = s.queue.drop 1 ++ [x]) :=
  ⟨Step.append s x hpc (Or.inl hlive), fun hfull => dequeAppend_full x hfull hmax⟩

theorem C2_live_push_drop_oldest_witness :
    Step (Sys.mk true 1)
      (St.mk ([0] : List Nat) false (PC.gotFrame 1) StopPC.notCalled [] [0] false)
      (St.mk ([1] : List Nat) false PC.top StopPC.notCalled [] [0, 1] false) ∧
    ((St.mk ([0] : List Nat) false (PC.gotFrame 1) StopPC.notCalled [] [0] false).queue.length =
        (Sys.mk true 1).maxlen →
      dequeAppend 1 [0] 1 = ([0] : List Nat).drop 1 ++ [1]) :=
  C2_live_push_drop_oldest (Sys.mk true 1)
    (St.mk ([0] : List Nat) false (PC.gotFrame 1) StopPC.notCalled [] [0] false)
    1 rfl (by decide) rfl

/-- Claim C2 fails as stated: appending frame 1 to the full one-slot buffer
`[0]` yields `[1]` — the previously buffered frame 0 is dropped and the
incoming newest frame 1 is kept, the opposite of the claimed drop-newest
policy. -/
theorem C2_counterexample :
    dequeAppend 1 [(0 : Nat)] 1 = [1] ∧ (1 : Nat) ∈ dequeAppend 1 [(0 : Nat)] 1 ∧
    (0 : Nat) ∉ dequeAppend 1 [(0 : Nat)] 1 := by decide

/-- Claim C3: for a non-live source, while the capture thread holds a
successfully read frame, the buffer is at capacity and the exit flag is
unset, no transition appends a frame (the thread stays in the wait loop of
lines 264-266), and as long as shutdown never fires the appended history is
exactly the returned frames followed by the still-buffered frames — no
frame from a finite source is dropped, and all are delivered once the
buffer drains. -/
theorem C3_nonlive_no_drop {α : Type} (sys : Sys) (s s' t : St α) (x : α)
    (hlive : sys.isLive = false) (hmax : 1 ≤ sys.maxlen) :
    (s.pc = PC.gotFrame x → s.queue.length = sys.maxlen →
      s.exitFlag = false → Step sys s s' → s'.appended = s.appended) ∧
    (Reaches sys t → t.exitFlag = false →
      t.appended = t.reads ++ t.queue) := by
  constructor
  · intro hpc hfull hex hst
    cases hst with
    | readOk y h1 h2 => rfl
    | readFail h1 h2 => rfl
    | exitLoop h1 h2 => rfl
    | append y h1 hguard =>
        rcases hguard with hL | hlen | hE
        · rw [hlive] at hL
          exact absurd hL (by simp)
        · rw [hfull] at hlen
          exact absurd hlen (lt_irrefl _)
        · rw [hex] at hE
          exact absurd hE (by simp)
    | fail h1 => rfl
    | pop hguard =>
        rcases hq : s.queue with _ | ⟨y, u⟩
        · rw [applyPop_nil hq]
        · rw [applyPop_cons hq]
    | sigStop h1 => rfl
    | clearStop h1 => rfl
    | joinStop h1 h2 => rfl
  · intro ht hex
    exact (sysInv_reaches ht hmax).2.2.2.1 hlive hex

theorem C3_nonlive_no_drop_witness :
    (St.mk ([] : List Nat) false (PC.gotFrame 4) StopPC.notCalled [3] [3] false).appended =
      (St.mk ([3] : List Nat) false (PC.gotFrame 4) StopPC.notCalled [] [3] false).appended ∧
    (@initSt Nat 9).appended = (@initSt Nat 9).reads ++ (@initSt Nat 9).queue := by
  have c := C3_nonlive_no_drop (Sys.mk false 1)
    (St.mk ([3] : List Nat) false (PC.gotFrame 4) StopPC.notCalled [] [3] false)
    (St.mk ([] : List Nat) false (PC.gotFrame 4) StopPC.notCalled [3] [3] false)
    (@initSt Nat 9) 4 rfl (by decide)
  exact ⟨c.1 rfl rfl rfl (Step.pop _ (by decide)),
         c.2 (@Reaches.init (Sys.mk false 1) Nat 9) rfl⟩

/-- Claim C4: `cap_dt` equals `1 / min cap_fps proc_fps` for a live source
and `1 / cap_fps` otherwise, and the construction-time `cap_fps` falls back
to the configured `frame_rate` exactly when the source reports a zero rate.
`cap_dt` is a pure function of the fields it reads (the Python property
assigns nothing), so querying it mutates no state. -/
theorem C4_cap_dt_spec (capFps procFps frameRate reported : ℚ)
    (hrep : reported ≠ 0) :
    cap_dt true capFps procFps = 1 / min capFps procFps ∧
    cap_dt false capFps procFps = 1 / capFps ∧
    capFpsInit 0 frameRate = frameRate ∧
    capFpsInit reported frameRate = reported := by
  refine ⟨by simp [cap_dt], by simp [cap_dt], by simp [capFpsInit], ?_⟩
  simp [capFpsInit, hrep]

theorem C4_cap_dt_spec_witness :
    cap_dt true 30 10 = 1 / min 30 10 ∧
    cap_dt false 30 10 = 1 / 30 ∧
    capFpsInit 0 25 = 25 ∧
    capFpsInit 24 25 = 24 :=
  C4_cap_dt_spec 30 10 25 24 (by norm_num)

/-- Claim C5: once the wait loop of `read` has exited (its condition
`queue empty and exit unset` is false), the returned value is the
end-of-stream sentinel `None` exactly when the buffer is empty and the
shutdown flag is set; in every other case the head frame of the queue is
removed and returned.  The locked body is a legal transition of the system
and has no error outcome: ordinary end of stream is a sentinel, not an
exception. -/
theorem C5_read_eos_contract {α : Type} (sys : Sys) (s : St α) (x : α)
    (hwait : ¬(s.queue = [] ∧ s.exitFlag = false)) :
    (readDecision s = none ↔ s.queue = [] ∧ s.exitFlag = true) ∧
    (readDecision s = some x → s.queue = x :: (applyPop s).queue ∧
      (applyPop s).reads = s.reads ++ [x]) ∧
    Step sys s (applyPop s) := by
  refine ⟨?_, ?_, Step.pop s hwait⟩
  · rcases hq : s.queue with _ | ⟨y, t⟩
    · have hex : s.exitFlag = true := by
        cases hex : s.exitFlag
        · exact absurd ⟨hq, hex⟩ hwait
        · rfl
      simp [readDecision_nil hq, hq, hex]
    · simp [readDecision_cons hq, hq]
  · intro hx
    rcases hq : s.queue with _ | ⟨y, t⟩
    · rw [readDecision_nil hq] at hx
      exact absurd hx (by simp)
    · rw [readDecision_cons hq] at hx
      have hyx : y = x := by injection hx
      subst hyx
      rw [applyPop_cons hq]
      exact ⟨rfl, rfl⟩

theorem C5_read_eos_contract_witness :
    (readDecision (St.mk ([7] : List Nat) true PC.done StopPC.notCalled [] [7] false) = none ↔
      (St.mk ([7] : List Nat) true PC.done StopPC.notCalled [] [7] false).queue = [] ∧
      (St.mk ([7] : List Nat) true PC.done StopPC.notCalled [] [7] false).exitFlag = true) ∧
    (readDecision (St.mk ([7] : List Nat) true PC.done StopPC.notCalled [] [7] false) = some 7 →
      (St.mk ([7] : List Nat) true PC.done StopPC.notCalled [] [7] false).queue =
        7 :: (applyPop (St.mk ([7] : List Nat) true PC.done StopPC.notCalled [] [7] false)).queue ∧
      (applyPop (St.mk ([7] : List Nat) true PC.done StopPC.notCalled [] [7] false)).reads =
        (St.mk ([7] : List Nat) true PC.done StopPC.notCalled [] [7] false).reads ++ [7]) ∧
    Step (Sys.mk false 2) (St.mk ([7] : List Nat) true PC.done StopPC.notCalled [] [7] false)
      (applyPop (St.mk ([7] : List Nat) true PC.done StopPC.notCalled [] [7] false)) :=
  C5_read_eos_contract (Sys.mk false 2)
    (St.mk ([7] : List Nat) true PC.done StopPC.notCalled [] [7] false) 7 (by decide)

/-- Claim C6 (amended): in every reachable state in which `stop_capture`
has returned (its join completed), the shutdown flag is set and the capture
thread has exited; the buffer, however, is only guaranteed to hold at most
one frame, not to be empty — the capture thread may append one last frame
between `stop_capture`'s clear (which runs outside the lock) and its own
exit (see `C6_counterexample`). -/
theorem C6_stop_joined_state {α : Type} (sys : Sys) (s : St α)
    (h : Reaches sys s) (hmax : 1 ≤ sys.maxlen)
    (hj : s.stopPC = StopPC.joined) :
    s.exitFlag = true ∧ s.pc = PC.done ∧ s.queue.length ≤ 1 := by
  obtain ⟨h1, h2, h3, h4, h5, h6⟩ := sysInv_reaches h hmax
  refine ⟨h3 (by simp [hj]), h6 hj, ?_⟩
  have h := h5 (Or.inr hj)
  omega

theorem C6_stop_joined_state_witness :
    (St.mk ([] : List Nat) true PC.done StopPC.joined [] [0] false).exitFlag = true ∧
    (St.mk ([] : List Nat) true PC.done StopPC.joined [] [0] false).pc = PC.done ∧
    (St.mk ([] : List Nat) true PC.done StopPC.joined [] [0] false).queue.length ≤ 1 := by
  have r0 : Reaches (Sys.mk false 2) (initSt (0 : Nat)) := Reaches.init 0
  have r1 : Reaches (Sys.mk false 2)
      (St.mk [0] true PC.top StopPC.signaled [] [0] false) :=
    Reaches.step r0 (Step.sigStop _ rfl)
  have r2 : Reaches (Sys.mk false 2)
      (St.mk [] true PC.top StopPC.cleared [] [0] false) :=
    Reaches.step r1 (Step.clearStop _ rfl)
  have r3 : Reaches (Sys.mk false 2)
      (St.mk [] true PC.done StopPC.cleared [] [0] false) :=
    Reaches.step r2 (Step.exitLoop _ rfl rfl)
  have r4 : Reaches (Sys.mk false 2)
      (St.mk [] true PC.done StopPC.joined [] [0] false) :=
    Reaches.step r3 (Step.joinStop _ rfl rfl)
  exact C6_stop_joined_state (Sys.mk false 2) _ r4 (by decide) rfl

/-- Claim C6 fails as stated: `stop_capture` clears the queue outside the
lock, so the capture thread, already holding frame 1 from `source.read()`,
appends it after the clear and only then observes the exit flag and
terminates.  After `join` returns the buffer still holds frame 1 — the
reachable joined state below has a non-empty queue. -/
theorem C6_counterexample :
    Reaches (Sys.mk false 2)
      (St.mk ([1] : List Nat) true PC.done StopPC.joined [] [0, 1] false) ∧
    (St.mk ([1] : List Nat) true PC.done StopPC.joined [] [0, 1] false).queue ≠ [] := by
  constructor
  · have r0 : Reaches (Sys.mk false 2) (initSt (0 : Nat)) := Reaches.init 0
    have r1 : Reaches (Sys.mk false 2)
        (St.mk [0] false (PC.gotFrame 1) StopPC.notCalled [] [0] false) :=
      Reaches.step r0 (Step.readOk _ 1 rfl rfl)
    have r2 : Reaches (Sys.mk false 2)
        (St.mk [0] true (PC.gotFrame 1) StopPC.signaled [] [0] false) :=
      Reaches.step r1 (Step.sigStop _ rfl)
    have r3 : Reaches (Sys.mk false 2)
        (St.mk [] true (PC.gotFrame 1) StopPC.cleared [] [0] false) :=
      Reaches.step r2 (Step.clearStop _ rfl)
    have r4 : Reaches (Sys.mk false 2)
        (St.mk [1] true PC.top StopPC.cleared [] [0, 1] false) :=
      Reaches.step r3 (Step.append _ 1 rfl (Or.inr (Or.inr rfl)))
    have r5 : Reaches (Sys.mk false 2)
        (St.mk [1] true PC.done StopPC.cleared [] [0, 1] false) :=
      Reaches.step r4 (Step.exitLoop _ rfl rfl)
    exact Reaches.step r5 (Step.joinStop _ rfl rfl)
  · decide

/-- Claim C7: with valid construction parameters, if the very first
`source.read()` fails, construction raises `RuntimeError('Unable to read
video stream')` immediately; and a successful construction leaves the
capture thread created but not started — `Thread.start()` is only invoked
from `start_capture`, never during `__init__`, so no background capture
thread runs when construction fails. -/
theorem C7_construction_failure (size : ℚ × ℚ) (frameRate : ℚ)
    (bufferSize : Nat) (procFps : ℚ) (nativeW nativeH reportedFps : ℚ)
    (f : Frame) (h1 : 0 < frameRate) (h2 : 1 ≤ bufferSize)
    (h3 : 0 < procFps) :
    videoInit size frameRate bufferSize procFps none nativeW nativeH reportedFps =
      Except.error "Unable to read video stream" ∧
    initThreadStarted (videoInit size frameRate bufferSize procFps (some f)
      nativeW nativeH reportedFps) = some false := by
  constructor
  · simp [videoInit, h1, h2, h3]
  · simp [videoInit, initThreadStarted, h1, h2, h3, Except.toOption]

theorem C7_construction_failure_witness :
    videoInit (1280, 720) 30 10 30 none 1920 1080 0 =
      Except.error "Unable to read video stream" ∧
    initThreadStarted (videoInit (1280, 720) 30 10 30
      (some (Frame.mk 1920 1080 0)) 1920 1080 0) = some false :=
  C7_construction_failure (1280, 720) 30 10 30 1920 1080 0
    (Frame.mk 1920 1080 0) (by norm_num) (by norm_num) (by norm_num)

/-- Claim C8: the resize decision is taken once at construction by
comparing the source's native resolution with the configured target size
(`do_resize`, line 92); every frame returned by `read` is then resized to
the target dimensions when the resolutions differ and returned unmodified
(no transform at all) when they are equal. -/
theorem C8_resize_policy (size : ℚ × ℚ) (frameRate : ℚ) (bufferSize : Nat)
    (procFps : ℚ) (nativeW nativeH reportedFps : ℚ) (f f0 : Frame)
    (h1 : 0 < frameRate) (h2 : 1 ≤ bufferSize) (h3 : 0 < procFps) :
    initDoResize (videoInit size frameRate bufferSize procFps (some f0)
      nativeW nativeH reportedFps) = some (decide ((nativeW, nativeH) ≠ size)) ∧
    ((nativeW, nativeH) ≠ size →
      (readPost (decide ((nativeW, nativeH) ≠ size)) size f).width = size.1 ∧
      (readPost (decide ((nativeW, nativeH) ≠ size)) size f).height = size.2) ∧
    ((nativeW, nativeH) = size →
      readPost (decide ((nativeW, nativeH) ≠ size)) size f = f) := by
  refine ⟨?_, ?_, ?_⟩
  · simp [videoInit, initDoResize, h1, h2, h3, Except.toOption]
  · intro hne
    simp [readPost, cvResize, hne]
  · intro heq
    simp [readPost, heq]

theorem C8_resize_policy_witness :
    initDoResize (videoInit (1280, 720) 30 10 30 (some (Frame.mk 640 480 5))
      640 480 0) = some (decide (((640 : ℚ), (480 : ℚ)) ≠ ((1280 : ℚ), (720 : ℚ)))) ∧
    (readPost (decide (((640 : ℚ), (480 : ℚ)) ≠ ((1280 : ℚ), (720 : ℚ))))
      (1280, 720) (Frame.mk 640 480 7)).width = 1280 ∧
    readPost (decide (((1280 : ℚ), (720 : ℚ)) ≠ ((1280 : ℚ), (720 : ℚ))))
      (1280, 720) (Frame.mk 1280 720 7) = Frame.mk 1280 720 7 :=
  ⟨(C8_resize_policy (1280, 720) 30 10 30 640 480 0 (Frame.mk 640 480 7)
      (Frame.mk 640 480 5) (by norm_num) (by norm_num) (by norm_num)).1,
   ((C8_resize_policy (1280, 720) 30 10 30 640 480 0 (Frame.mk 640 480 7)
      (Frame.mk 640 480 5) (by norm_num) (by norm_num) (by norm_num)).2.1
     (by simp)).1,
   (C8_resize_policy (1280, 720) 30 10 30 1280 720 0 (Frame.mk 1280 720 7)
      (Frame.mk 1280 720 5) (by norm_num) (by norm_num) (by norm_num)).2.2 rfl⟩

/-- Claim C9: once capture has started, calling `stop_capture` twice is
harmless (the second call returns at once on the same state), and calling
`release` twice succeeds with each of the source and writer handles freed
at most once — OpenCV release on a closed handle is a no-op, so there is
no double-free and no error.  The model's totality together with
`captureTaskProgress` (the capture thread always reaches `PC.done` once
the exit event is set, in at most two steps) rules out a deadlocked
`join`. -/
theorem C9_idempotent_shutdown (s : CState)
    (h : s.cap_thread.started = true) :
    stopCapture s = Except.ok (stopped s) ∧
    stopCapture (stopped s) = Except.ok (stopped s) ∧
    closesBounded ((release s).bind release) (s.source_closes + 1)
      (s.writer_closes + 1) := by
  obtain ⟨⟨st, al⟩, ex, so, sc, hw, wo, wc⟩ := s
  have hst : st = true := h
  subst hst
  refine ⟨?_, ?_, ?_⟩
  · simp [stopCapture, PThread.join, stopped]
  · simp [stopCapture, PThread.join, stopped]
  · cases so <;> cases hw <;> cases wo <;>
      simp [release, stopCapture, PThread.join, stopped, cvSourceRelease,
        cvWriterRelease, closesBounded, Except.bind]

theorem C9_idempotent_shutdown_witness :
    stopCapture (CState.mk (PThread.mk true true) false true 0 true true 0) =
      Except.ok (stopped (CState.mk (PThread.mk true true) false true 0 true true 0)) ∧
    stopCapture (stopped (CState.mk (PThread.mk true true) false true 0 true true 0)) =
      Except.ok (stopped (CState.mk (PThread.mk true true) false true 0 true true 0)) ∧
    closesBounded ((release (CState.mk (PThread.mk true true) false true 0 true true 0)).bind release)
      (0 + 1) (0 + 1) :=
  C9_idempotent_shutdown (CState.mk (PThread.mk true true) false true 0 true true 0) rfl

/-- Claim C10: once `stop_capture` has completed on a started instance, a
subsequent `start_capture` raises: `cap_thread.is_alive()` is false for the
joined thread, so `start_capture` calls `Thread.start()` on a thread that
was already started once, which Python rejects with `RuntimeError` — a
stopped controller can never resume capturing. -/
theorem C10_no_restart_after_stop (s : CState)
    (h : s.cap_thread.started = true) :
    stopCapture s = Except.ok (stopped s) ∧
    startCapture (stopped s) =
      Except.error "threads can only be started once" := by
  obtain ⟨⟨st, al⟩, ex, so, sc, hw, wo, wc⟩ := s
  have hst : st = true := h
  subst hst
  constructor
  · simp [stopCapture, PThread.join, stopped]
  · cases so <;> simp [startCapture, PThread.start, stopped]

theorem C10_no_restart_after_stop_witness :
    stopCapture (CState.mk (PThread.mk true true) false true 0 false false 0) =
      Except.ok (stopped (CState.mk (PThread.mk true true) false true 0 false false 0)) ∧
    startCapture (stopped (CState.mk (PThread.mk true true) false true 0 false false 0)) =
      Except.error "threads can only be started once" :=
  C10_no_restart_after_stop
    (CState.mk (PThread.mk true true) false true 0 false false 0) rfl
